import Mathlib

/-!
# learnBasicCpp: the variadic `Tuple`, the variadic `printf` and the capturing lambdas

Shallow embedding of

* `2_VariadicTemplate/variadicTemplate_tuple.hpp` (`Tuple<Values...>`),
* `2_VariadicTemplate/variadicTemplate_printf.hpp` (the two `printf` overloads),
* `13_lambda/main.cpp` (`test_mutable_lambda`),
* `8_defaultAndDeleteInClass/main.cpp` (`MyClass` and the first block of `main`),

followed by the theorems about them.
-/

set_option autoImplicit false

namespace VariadicTemplate

/-! ## `variadicTemplate_tuple.hpp` -/

/-- Content of a data member of type `α`.  A member that no constructor initialises and
whose type is a built-in scalar (`int`, `float`, a pointer) holds an indeterminate value;
every other member holds a value of its type. -/
inductive Slot (α : Type) where
  | indeterminate : Slot α
  | value (v : α) : Slot α

/-- The explicit specialisation `template <> class Tuple<> {}`: a class without members
and without member functions. -/
structure TupleNil : Type where
  mk ::

/-- The partial specialisation `class Tuple<Head, Tail...> : private Tuple<Tail...>`:
the base-class subobject of type `inherited = Tuple<Tail...>` and the member `m_head`. -/
structure TupleCons (Head : Type) (Inherited : Type) : Type where
  inherited : Inherited
  m_head : Slot Head

/-- The class template `Tuple<Values...>`, by recursion on the type list exactly as the
two specialisations of the source are selected. -/
def Tuple : List Type → Type
  | [] => TupleNil
  | Head :: Tail => TupleCons Head (Tuple Tail)

/-- The function parameter pack `Head v, Tail... vtail`: one value per declared type. -/
def Pack : List Type → Type
  | [] => Unit
  | Head :: Tail => Head × Pack Tail

/-- The `i`-th argument of a parameter pack. -/
def Pack.get : (Ts : List Type) → Pack Ts → (i : Nat) → (h : i < Ts.length) → Ts.get ⟨i, h⟩
  | [], _, _, h => absurd h (Nat.not_lt_zero _)
  | _ :: _, vs, 0, _ => vs.1
  | _ :: Tail, vs, i + 1, h => Pack.get Tail vs.2 i (Nat.lt_of_succ_lt_succ h)

/-- The constructor `Tuple(Head v, Tail... vtail) : m_head(v), inherited(vtail...) {}`;
for the empty pack `inherited(vtail...)` is the implicit constructor of `Tuple<>`. -/
def Tuple.ctor : (Ts : List Type) → Pack Ts → Tuple Ts
  | [], _ => TupleNil.mk
  | _ :: Tail, vs => TupleCons.mk (Tuple.ctor Tail vs.2) (Slot.value vs.1)

/-- The member function `auto head() -> decltype(m_head) { return m_head; }`: the content
of `m_head`, by value.  It exists on the non-empty specialisation only. -/
def Tuple.head {Head : Type} {Tail : List Type} (t : Tuple (Head :: Tail)) : Slot Head :=
  TupleCons.m_head t

/-- The member function `inherited &tail() { return *this; }`: the base-class subobject.
It exists on the non-empty specialisation only. -/
def Tuple.tail {Head : Type} {Tail : List Type} (t : Tuple (Head :: Tail)) : Tuple Tail :=
  TupleCons.inherited t

/-- The expression `t.tail(). ... .tail().head()` with `i` applications of `tail()`; it
is well-typed exactly when `i` is smaller than the number of element types. -/
def Tuple.tailsHead : (Ts : List Type) → Tuple Ts → (i : Nat) → (h : i < Ts.length) →
    Slot (Ts.get ⟨i, h⟩)
  | [], _, _, h => absurd h (Nat.not_lt_zero _)
  | _ :: _, t, 0, _ => Tuple.head t
  | _ :: Tail, t, i + 1, h => Tuple.tailsHead Tail (Tuple.tail t) i (Nat.lt_of_succ_lt_succ h)

/-- The member function `head()` as a call on an object: the returned value together with
the object after the call (the body holds no assignment). -/
def Tuple.head_call {Head : Type} {Tail : List Type} (t : Tuple (Head :: Tail)) :
    Slot Head × Tuple (Head :: Tail) :=
  (TupleCons.m_head t, t)

/-- The member function `tail()` as a call on an object: the referenced base-class
subobject together with the object after the call (the body holds no assignment). -/
def Tuple.tail_call {Head : Type} {Tail : List Type} (t : Tuple (Head :: Tail)) :
    Tuple Tail × Tuple (Head :: Tail) :=
  (TupleCons.inherited t, t)

/-- How an object of type `α` is default-initialised, which is what a constructor does to
a member it does not name in its initialiser list. -/
inductive DefaultInit (α : Type) where
  /-- A built-in scalar type: no initialisation is performed; `zero` is the type's default
  value `α()`. -/
  | scalar (zero : α) : DefaultInit α
  /-- A class type with a default constructor, which produces `dflt`. -/
  | classType (dflt : α) : DefaultInit α

/-- The content of an object after its default-initialisation, from the content of its
storage before: a built-in scalar is not written, so the storage keeps what it held; a class
type is constructed by its default constructor. -/
def DefaultInit.slot {α : Type} : DefaultInit α → (storage : Slot α) → Slot α
  | DefaultInit.scalar _, storage => storage
  | DefaultInit.classType dflt, _ => Slot.value dflt

/-- The default-initialisation of every element type of a type list. -/
def DefaultInits : List Type → Type
  | [] => Unit
  | Head :: Tail => DefaultInit Head × DefaultInits Tail

/-- The default-initialisation of the `i`-th element type. -/
def DefaultInits.get : (Ts : List Type) → DefaultInits Ts → (i : Nat) → (h : i < Ts.length) →
    DefaultInit (Ts.get ⟨i, h⟩)
  | [], _, _, h => absurd h (Nat.not_lt_zero _)
  | _ :: _, ds, 0, _ => ds.1
  | _ :: Tail, ds, i + 1, h => DefaultInits.get Tail ds.2 i (Nat.lt_of_succ_lt_succ h)

/-- The constructor `Tuple() {}`, run on the storage of the object: the base class is
default-constructed and `m_head`, which the constructor does not name, is
default-initialised; the empty body writes nothing. -/
def Tuple.defaultCtor : (Ts : List Type) → DefaultInits Ts → (storage : Tuple Ts) → Tuple Ts
  | [], _, _ => TupleNil.mk
  | _ :: Tail, ds, storage =>
    TupleCons.mk (Tuple.defaultCtor Tail ds.2 (TupleCons.inherited storage))
      (DefaultInit.slot ds.1 (TupleCons.m_head storage))

/-- The implicitly defined copy constructor: base class first, then `m_head`, each copied. -/
def Tuple.copyCtor : (Ts : List Type) → Tuple Ts → Tuple Ts
  | [], _ => TupleNil.mk
  | _ :: Tail, t => TupleCons.mk (Tuple.copyCtor Tail (TupleCons.inherited t)) (TupleCons.m_head t)

/-- The implicitly defined copy assignment `self = other`: base class first, then `m_head`,
each assigned; the result is the object `self` after the assignment. -/
def Tuple.copyAssign : (Ts : List Type) → (self other : Tuple Ts) → Tuple Ts
  | [], self, _ => self
  | _ :: Tail, self, other =>
    TupleCons.mk (Tuple.copyAssign Tail (TupleCons.inherited self) (TupleCons.inherited other))
      (TupleCons.m_head other)

/-- The statement `t.tail(). ... .tail() = u` with `depth` applications of `tail()`, as the
object `t` after it: `tail()` returns a reference to the base-class subobject of `t`, so
the assignment writes into `t`.  Depth `0` is `t = u`.  (`Tuple<>` has no `tail()`.) -/
def Tuple.assignAt : (Ts : List Type) → (depth : Nat) → Tuple Ts → Tuple (Ts.drop depth) →
    Tuple Ts
  | Ts, 0, t, u => Tuple.copyAssign Ts t u
  | [], _ + 1, t, _ => t
  | _ :: Tail, depth + 1, t, u =>
    TupleCons.mk (Tuple.assignAt Tail depth (TupleCons.inherited t) u) (TupleCons.m_head t)

/-- An assignment to the object `t`, through `depth` applications of `tail()`. -/
structure Mutation (Ts : List Type) : Type where
  depth : Nat
  newValue : Tuple (Ts.drop depth)

/-- Two objects of one `Tuple` type: the source `t` and the copy `c`. -/
structure Vars (Ts : List Type) : Type where
  t : Tuple Ts
  c : Tuple Ts

/-- The declaration `Tuple<Ts...> c(t);`. -/
def Vars.copyConstruct {Ts : List Type} (t : Tuple Ts) : Vars Ts :=
  { t := t, c := Tuple.copyCtor Ts t }

/-- The statement `c = t;`. -/
def Vars.copyAssign {Ts : List Type} (s : Vars Ts) : Vars Ts :=
  { t := s.t, c := Tuple.copyAssign Ts s.c s.t }

/-- One assignment to `t`; `c` is a distinct object and is not written. -/
def Vars.mutate {Ts : List Type} (s : Vars Ts) (m : Mutation Ts) : Vars Ts :=
  { t := Tuple.assignAt Ts m.depth s.t m.newValue, c := s.c }

/-- The number of elements of a `Tuple` object: one per level of the inheritance chain. -/
def Tuple.arity : (Ts : List Type) → Tuple Ts → Nat
  | [], _ => 0
  | _ :: Tail, t => Tuple.arity Tail (Tuple.tail t) + 1

/-- A `Tuple` object of any instantiation of the template. -/
structure AnyTuple : Type 1 where
  Values : List Type
  obj : Tuple Values

/-- The expression `t.tail()` on an object of any instantiation: `none` on `Tuple<>`,
which has no such member (the expression does not compile). -/
def AnyTuple.tail : AnyTuple → Option AnyTuple
  | ⟨[], _⟩ => none
  | ⟨_ :: Tail, t⟩ => some ⟨Tail, Tuple.tail t⟩

/-- The expression `t.tail(). ... .tail()` with `k` applications of `tail()`. -/
def AnyTuple.tails : Nat → AnyTuple → Option AnyTuple
  | 0, t => some t
  | k + 1, t => (AnyTuple.tail t).bind (AnyTuple.tails k)

/-- Whether the object is a non-empty sequence, the specialisation that has `head()` and
`tail()`. -/
def AnyTuple.nonEmpty : AnyTuple → Bool
  | ⟨[], _⟩ => false
  | ⟨_ :: _, _⟩ => true

/-- The call `Tuple<int, float, std::string> t(42, 3.14, "hello")` of `test.hpp`, with the
element type `float` as `F` and the value the literal `3.14` converts to as `f`. -/
def testTuple (F : Type) (f : F) : Tuple [Int, F, String] :=
  Tuple.ctor [Int, F, String] (42, f, "hello", ())

/-! ## `variadicTemplate_printf.hpp`

The pointer `const char *s` points into an array of `char` whose last element is a NUL.
It is the list of the characters of the array from the current position up to that last
NUL, which is left out: `*s` is the first of them, or the NUL when none is left, and `++s`
drops one.  The format string is the part before the first NUL; a NUL inside the list is
the terminator of a format string that has further characters behind it in the array, as
in the literal `"%\0%d"`.  A pointer moved past the last NUL points outside the array. -/

/-- An argument of `printf`: any value that `std::cout << value` accepts. -/
inductive Arg where
  /-- A `const char *`, such as `"Alice"`. -/
  | cstr (s : String) : Arg
  /-- An `int`, such as `5`. -/
  | int (n : Int) : Arg
  /-- A value of any other streamable type, given by the text `operator<<` writes. -/
  | other (text : List Char) : Arg

/-- The characters `std::cout << value` writes. -/
def Arg.streamed : Arg → List Char
  | Arg.cstr s => s.toList
  | Arg.int n => (toString n).toList
  | Arg.other text => text

/-- How a call ends. -/
inductive Outcome where
  /-- The call returns. -/
  | returned : Outcome
  /-- The call throws `std::logic_error(what)`. -/
  | logic_error (what : String) : Outcome
  /-- The call reads past the end of the array that holds the format string: undefined
  behaviour. -/
  | undefined : Outcome
  deriving DecidableEq

/-- What a call writes to `std::cout` and how it ends. -/
structure Run where
  out : List Char
  outcome : Outcome
  deriving DecidableEq

/-- Writing `cs` to `std::cout` before the rest of a run. -/
def Run.put (cs : List Char) (r : Run) : Run :=
  { out := cs ++ r.out, outcome := r.outcome }

/-- The terminator of a C string. -/
def NUL : Char := Char.ofNat 0

/-- The overload `void printf(const char *s)`. -/
def printf_base : List Char → Run
  | [] => { out := [], outcome := Outcome.returned }
  | c :: s =>
    if c = NUL then { out := [], outcome := Outcome.returned }
    else if c = '%' then
      match s with
      | [] =>
        { out := [], outcome := Outcome.logic_error "invalid format string: missing arguments" }
      | d :: s' =>
        if d ≠ '%' then
          { out := [],
            outcome := Outcome.logic_error "invalid format string: missing arguments" }
        else Run.put [d] (printf_base s')
    else Run.put [c] (printf_base s)

/-- The overload `template <typename T, typename... Args>
void printf(const char *s, T value, Args... args)`; the call `printf(++s, args...)` selects
the first overload when `args` is empty and this one otherwise. -/
def printf_args : Arg → List Arg → List Char → Run
  | _, _, [] => { out := [], outcome := Outcome.logic_error "extra arguments provided to printf" }
  | value, args, c :: s =>
    if c = NUL then
      { out := [], outcome := Outcome.logic_error "extra arguments provided to printf" }
    else if c = '%' then
      match s with
      | [] => Run.put value.streamed { out := [], outcome := Outcome.undefined }
      | d :: s' =>
        if d ≠ '%' then
          Run.put value.streamed
            (match args with
             | [] => printf_base s'
             | value' :: args' => printf_args value' args' s')
        else Run.put [d] (printf_args value args s')
    else Run.put [c] (printf_args value args s)

/-- A call `printf(s, args...)`, resolved to one of the two overloads. -/
def printf (s : List Char) : List Arg → Run
  | [] => printf_base s
  | value :: args => printf_args value args s

/-- The array holds the format string and its terminator and nothing else: no NUL before
the last one. -/
def NulFree (s : List Char) : Prop := ∀ c ∈ s, c ≠ NUL

/-- The format string the pointer denotes: the characters before the first NUL. -/
def cString : List Char → List Char
  | [] => []
  | c :: s => if c = NUL then [] else c :: cString s

/-! ### The format string as the claims describe it -/

/-- The pieces of a format string, read from left to right. -/
inductive Piece where
  /-- A character other than `%`. -/
  | plain (c : Char) : Piece
  /-- The pair `%%`. -/
  | escaped : Piece
  /-- A specifier: `%` followed by the character `c`, which is not `%`. -/
  | specifier (c : Char) : Piece
  /-- A final `%` that no character follows. -/
  | lonePercent : Piece
  deriving DecidableEq

/-- The format string cut into its pieces. -/
def pieces : List Char → List Piece
  | [] => []
  | [c] => if c = '%' then [Piece.lonePercent] else [Piece.plain c]
  | c :: d :: s =>
    if c = '%' then
      if d = '%' then Piece.escaped :: pieces s else Piece.specifier d :: pieces s
    else Piece.plain c :: pieces (d :: s)

/-- Whether a piece is a specifier. -/
def Piece.isSpecifier : Piece → Bool
  | Piece.specifier _ => true
  | _ => false

/-- Whether a piece is a final lone `%`. -/
def Piece.isLonePercent : Piece → Bool
  | Piece.lonePercent => true
  | _ => false

/-- The number of specifiers of a format string: `%` followed by a character other than
`%`. -/
def specifiers (s : List Char) : Nat := (pieces s).countP Piece.isSpecifier

/-- Whether the format string ends in an unpaired `%`. -/
def endsInLonePercent (s : List Char) : Bool := (pieces s).any Piece.isLonePercent

/-- The number of specifiers, a final lone `%` included. -/
def specifiersOrLonePercent (s : List Char) : Nat :=
  specifiers s + (if endsInLonePercent s then 1 else 0)

/-- The pieces written out with the `i`-th specifier replaced by the `i`-th text and every
`%%` replaced by a single `%`; a specifier for which no text is left and a final lone `%`
stay as they are. -/
def substituted : List Piece → List (List Char) → List Char
  | [], _ => []
  | Piece.plain c :: ps, texts => c :: substituted ps texts
  | Piece.escaped :: ps, texts => '%' :: substituted ps texts
  | Piece.specifier _ :: ps, text :: texts => text ++ substituted ps texts
  | Piece.specifier c :: ps, [] => '%' :: c :: substituted ps []
  | Piece.lonePercent :: ps, texts => '%' :: substituted ps texts

instance NulFree.decidable (s : List Char) : Decidable (NulFree s) := by
  unfold NulFree
  infer_instance

/-- The call `printf("Hello, %s! You have %d new messages.\n", "Alice", 5)` of
`testPrintf`. -/
def testPrintf : Run :=
  printf "Hello, %s! You have %d new messages.\n".toList [Arg.cstr "Alice", Arg.int 5]

end VariadicTemplate

/-! ## `13_lambda/main.cpp`, `test_mutable_lambda`

The values of `int x` stay far from the bounds of `int`, so `Int` holds them exactly.
`std::cout << ... << std::endl` writes one line; the output is the list of lines. -/

namespace Lambda

/-- The closure type of `[x]() mutable { ... }`: its one data member is the copy of `x`
made when the lambda expression is evaluated. -/
structure L1 where
  x : Int

/-- The function call operator of `l1`, which `mutable` makes non-const: `++x` on the
captured copy, then one line.  Returns the closure after the call and the line. -/
def L1.call (self : L1) : L1 × String :=
  let x := self.x + 1
  ({ x := x }, "Inside mutable lambda, x = " ++ toString x)

/-- The function call operator of `l2 = [&x](int param) { ... }`: the closure holds a
reference to the local `x`, so the call takes the value of that variable and returns its
new value, and the line. -/
def l2_call (param : Int) (x : Int) : Int × String :=
  let x := x + param
  (x, "Inside lambda l2, x = " ++ toString x)

/-- The first block of `test_mutable_lambda`: the lines it writes. -/
def test_mutable_lambda_l1 : List String :=
  let x : Int := 10
  let out := ["Test l1 lambda"]
  let l1 : L1 := { x := x }
  let x : Int := 42
  let r := l1.call
  let l1 := r.1
  let out := out ++ [r.2]
  let r := l1.call
  let l1 := r.1
  let out := out ++ [r.2]
  let r := l1.call
  let out := out ++ [r.2]
  out ++ ["Outside lambda, x = " ++ toString x]

set_option linter.unusedVariables false in
/-- The second block of `test_mutable_lambda`: the value of `x` after the first call
`l2(5)`, and the lines the block writes. -/
def test_mutable_lambda_l2 : Int × List String :=
  let x : Int := 10
  let out := ["Test l2 lambda"]
  let x : Int := 42
  let r := l2_call 5 x
  let x := r.1
  let afterFirstCall := x
  let out := out ++ [r.2]
  let r := l2_call 5 x
  let x := r.1
  let out := out ++ [r.2]
  let r := l2_call 5 x
  let x := r.1
  let out := out ++ [r.2]
  (afterFirstCall, out ++ ["Outside lambda l2, x = " ++ toString x])

end Lambda

/-! ## `8_defaultAndDeleteInClass/main.cpp`, `MyClass`

The member `int value` is only initialised, copied and printed, never computed with, so
`Int` holds it exactly. -/

namespace DefaultAndDelete

/-- The class `MyClass`: its one data member, declared `int value = 0;`. -/
structure MyClass where
  value : Int
  deriving DecidableEq

/-- The constructor `MyClass() = default;`: no initialiser list, so `value` takes its
default member initialiser `= 0`. -/
def MyClass.defaultCtor : MyClass :=
  { value := 0 }

/-- The constructor `MyClass(int val) : value(val) {}`. -/
def MyClass.ctor (val : Int) : MyClass :=
  { value := val }

/-- The copy constructor `MyClass(const MyClass &) = default;`: memberwise copy; the new
object. -/
def MyClass.copyCtor (other : MyClass) : MyClass :=
  { value := other.value }

/-- The copy assignment `MyClass &operator=(const MyClass &) = default;`: memberwise
assignment; the object `self` after it. -/
def MyClass.copyAssign (_self other : MyClass) : MyClass :=
  { value := other.value }

/-- The move constructor `MyClass(MyClass &&) = default;`: memberwise move, which for an
`int` member is a copy that leaves the source as it was; the new object and the source
after the call. -/
def MyClass.moveCtor (other : MyClass) : MyClass × MyClass :=
  ({ value := other.value }, other)

/-- The move assignment `MyClass &operator=(MyClass &&) = default;`: memberwise move
assignment; the object `self` and the source after the call. -/
def MyClass.moveAssign (_self other : MyClass) : MyClass × MyClass :=
  ({ value := other.value }, other)

/-- The member function `void print() const`: the line it writes. -/
def MyClass.print (self : MyClass) : String :=
  "Value: " ++ toString self.value

set_option linter.unusedVariables false in
/-- The first block of `main`: the lines it writes. -/
def main_default_block : List String :=
  let a := MyClass.defaultCtor
  let b := MyClass.ctor 10
  let c := MyClass.copyCtor b
  let r := MyClass.moveCtor b
  let d := r.1
  let b := r.2
  let a := MyClass.copyAssign a c
  let r := MyClass.moveAssign d a
  let d := r.1
  let a := r.2
  [d.print]

end DefaultAndDelete

namespace VariadicTemplate

/-! ## Theorems on `Tuple` -/

theorem Tuple.tailsHead_ctor (Ts : List Type) (vs : Pack Ts) (i : Nat) (h : i < Ts.length) :
    Tuple.tailsHead Ts (Tuple.ctor Ts vs) i h = Slot.value (Pack.get Ts vs i h) := by
  induction Ts generalizing i with
  | nil => exact absurd h (Nat.not_lt_zero _)
  | cons Head Tail ih =>
    cases i with
    | zero => rfl
    | succ i => exact ih vs.2 i (Nat.lt_of_succ_lt_succ h)

theorem Tuple.copyCtor_eq (Ts : List Type) (t : Tuple Ts) : Tuple.copyCtor Ts t = t := by
  induction Ts with
  | nil => rfl
  | cons Head Tail ih =>
    show TupleCons.mk (Tuple.copyCtor Tail (TupleCons.inherited t)) (TupleCons.m_head t) = t
    rw [ih]
    rfl

theorem Tuple.copyAssign_eq (Ts : List Type) (self other : Tuple Ts) :
    Tuple.copyAssign Ts self other = other := by
  induction Ts with
  | nil => rfl
  | cons Head Tail ih =>
    show TupleCons.mk (Tuple.copyAssign Tail (TupleCons.inherited self)
      (TupleCons.inherited other)) (TupleCons.m_head other) = other
    rw [ih]
    rfl

theorem Vars.foldl_mutate_c {Ts : List Type} (ms : List (Mutation Ts)) (s : Vars Ts) :
    (ms.foldl Vars.mutate s).c = s.c := by
  induction ms generalizing s with
  | nil => rfl
  | cons m ms ih => exact ih (Vars.mutate s m)

theorem Tuple.arity_eq_length (Ts : List Type) (t : Tuple Ts) :
    Tuple.arity Ts t = Ts.length := by
  induction Ts with
  | nil => rfl
  | cons Head Tail ih =>
    show Tuple.arity Tail (Tuple.tail t) + 1 = Tail.length + 1
    rw [ih]

theorem AnyTuple.tails_of_le (k : Nat) (t : AnyTuple) (hk : k ≤ t.Values.length) :
    ∃ u : AnyTuple, AnyTuple.tails k t = some u ∧ u.Values.length = t.Values.length - k := by
  induction k generalizing t with
  | zero => exact ⟨t, rfl, rfl⟩
  | succ k ih =>
    obtain ⟨Ts, obj⟩ := t
    cases Ts with
    | nil => exact absurd hk (Nat.not_succ_le_zero k)
    | cons Head Tail =>
      obtain ⟨u, hu, hlen⟩ := ih ⟨Tail, Tuple.tail obj⟩ (Nat.le_of_succ_le_succ hk)
      refine ⟨u, hu, ?_⟩
      rw [hlen]
      exact (Nat.succ_sub_succ Tail.length k).symm

theorem AnyTuple.nonEmpty_of_length_pos (u : AnyTuple) (h : 0 < u.Values.length) :
    u.nonEmpty = true := by
  obtain ⟨Ts, obj⟩ := u
  cases Ts with
  | nil => exact absurd h (Nat.lt_irrefl 0)
  | cons Head Tail => rfl

theorem AnyTuple.eq_nil_of_length_zero (u : AnyTuple) (h : u.Values.length = 0) :
    u = ⟨[], TupleNil.mk⟩ := by
  obtain ⟨Ts, obj⟩ := u
  cases Ts with
  | nil => rfl
  | cons Head Tail => exact absurd h (Nat.succ_ne_zero _)

/-- C1: for every list of element types and every matching pack of values, the `Tuple`
constructed from the pack returns, for every position `i` of the list, the `i`-th value of
the pack when `tail()` is applied `i` times and then `head()` once; and the object
`t(42, 3.14, "hello")` of `testVariadicTemplateTuple` has `head()` equal to `42`,
`tail().head()` equal to the second argument and `tail().tail().head()` equal to
`"hello"`. -/
theorem Tuple_positional_access :
    (∀ (Ts : List Type) (vs : Pack Ts) (i : Nat) (h : i < Ts.length),
      Tuple.tailsHead Ts (Tuple.ctor Ts vs) i h = Slot.value (Pack.get Ts vs i h)) ∧
    (∀ (F : Type) (f : F),
      Tuple.head (testTuple F f) = Slot.value 42 ∧
      Tuple.head (Tuple.tail (testTuple F f)) = Slot.value f ∧
      Tuple.head (Tuple.tail (Tuple.tail (testTuple F f))) = Slot.value "hello") :=
  ⟨Tuple.tailsHead_ctor, fun _ _ => ⟨rfl, rfl, rfl⟩⟩

/-- Witness of C1: position 1 of the three-element object of `test.hpp`, with `float` read
as the rational number a `float` denotes and the second argument the `float` nearest to
`3.14`. -/
theorem Tuple_positional_access_witness :
    Tuple.tailsHead [Int, ℚ, String]
      (Tuple.ctor [Int, ℚ, String] (42, 13170115 / 4194304, "hello", ())) 1 (by decide)
      = Slot.value (13170115 / 4194304 : ℚ) :=
  Tuple_positional_access.1 [Int, ℚ, String] (42, 13170115 / 4194304, "hello", ()) 1 (by decide)

/-- C2: for every head value `v` and every (possibly empty) pack `vs` of remaining values,
the `Tuple` constructed from `(v, vs...)` has `head()` equal to `v` and `tail()` equal to
the `Tuple` constructed from `(vs...)` alone. -/
theorem Tuple_construction (Head : Type) (Tail : List Type) (v : Head) (vs : Pack Tail) :
    Tuple.head (Tuple.ctor (Head :: Tail) (v, vs)) = Slot.value v ∧
    Tuple.tail (Tuple.ctor (Head :: Tail) (v, vs)) = Tuple.ctor Tail vs :=
  ⟨rfl, rfl⟩

/-- C4: if `c` is a copy of `t`, made by the copy constructor or by copy assignment, and
`t` is then mutated by any sequence of assignments of a new sub-sequence through
`t.tail()` at any depth or of a whole new `Tuple` to `t`, then every position of `c` still
reads the value `t` held at that position when the copy was made. -/
theorem Tuple_copy_independence (Ts : List Type) (t c₀ : Tuple Ts) (ms : List (Mutation Ts))
    (i : Nat) (h : i < Ts.length) :
    Tuple.tailsHead Ts (ms.foldl Vars.mutate (Vars.copyConstruct t)).c i h
      = Tuple.tailsHead Ts t i h ∧
    Tuple.tailsHead Ts (ms.foldl Vars.mutate (Vars.copyAssign { t := t, c := c₀ })).c i h
      = Tuple.tailsHead Ts t i h := by
  rw [Vars.foldl_mutate_c, Vars.foldl_mutate_c]
  constructor
  · show Tuple.tailsHead Ts (Tuple.copyCtor Ts t) i h = _
    rw [Tuple.copyCtor_eq]
  · show Tuple.tailsHead Ts (Tuple.copyAssign Ts c₀ t) i h = _
    rw [Tuple.copyAssign_eq]

/-- Witness of C4: `Tuple<int, std::string> t(1, "a")` is copied, then `t.tail()` is
assigned `("b")` and `t` is assigned `(2, "c")`; position 1 of the copy still reads
`"a"`. -/
theorem Tuple_copy_independence_witness :
    Tuple.tailsHead [Int, String]
      ([({ depth := 1, newValue := Tuple.ctor [String] ("b", ()) } : Mutation [Int, String]),
        { depth := 0, newValue := Tuple.ctor [Int, String] (2, "c", ()) }].foldl Vars.mutate
        (Vars.copyConstruct (Tuple.ctor [Int, String] (1, "a", ())))).c 1 (by decide)
      = Slot.value "a" :=
  (Tuple_copy_independence [Int, String] (Tuple.ctor [Int, String] (1, "a", ()))
    (Tuple.ctor [Int, String] (0, "", ()))
    [{ depth := 1, newValue := Tuple.ctor [String] ("b", ()) },
     { depth := 0, newValue := Tuple.ctor [Int, String] (2, "c", ()) }] 1 (by decide)).1

/-- C8: the arity of a `Tuple` is the number of values it was constructed from; `tail()`
yields a sequence of arity exactly one less; on a `Tuple` of arity `n + 1`, `k ≤ n`
applications of `tail()` yield a non-empty sequence (of arity `n + 1 - k`) and `n + 1`
applications yield the empty sequence; and `head()` and `tail()` leave the object they are
called on as it was. -/
theorem Tuple_shape_invariant (Head : Type) (Tail : List Type) (t : Tuple (Head :: Tail))
    (k : Nat) (hk : k ≤ Tail.length) :
    (∀ (Ts : List Type) (vs : Pack Ts), Tuple.arity Ts (Tuple.ctor Ts vs) = Ts.length) ∧
    Tuple.arity (Head :: Tail) t = Tail.length + 1 ∧
    Tuple.arity Tail (Tuple.tail t) + 1 = Tuple.arity (Head :: Tail) t ∧
    (∃ u : AnyTuple, AnyTuple.tails k ⟨Head :: Tail, t⟩ = some u ∧ u.nonEmpty = true ∧
      Tuple.arity u.Values u.obj = Tail.length + 1 - k) ∧
    AnyTuple.tails (Tail.length + 1) ⟨Head :: Tail, t⟩ = some ⟨[], TupleNil.mk⟩ ∧
    (Tuple.head_call t).1 = Tuple.head t ∧ (Tuple.head_call t).2 = t ∧
    (Tuple.tail_call t).1 = Tuple.tail t ∧ (Tuple.tail_call t).2 = t := by
  refine ⟨fun Ts vs => Tuple.arity_eq_length Ts _, Tuple.arity_eq_length _ t, rfl, ?_, ?_,
    rfl, rfl, rfl, rfl⟩
  · obtain ⟨u, hu, hlen⟩ := AnyTuple.tails_of_le k ⟨Head :: Tail, t⟩ (Nat.le_succ_of_le hk)
    have hlen' : u.Values.length = Tail.length + 1 - k := hlen
    refine ⟨u, hu, AnyTuple.nonEmpty_of_length_pos u ?_, ?_⟩
    · omega
    · rw [Tuple.arity_eq_length]
      exact hlen'
  · obtain ⟨u, hu, hlen⟩ := AnyTuple.tails_of_le (Tail.length + 1) ⟨Head :: Tail, t⟩
      (Nat.le_refl _)
    have hlen' : u.Values.length = Tail.length + 1 - (Tail.length + 1) := hlen
    rw [hu, AnyTuple.eq_nil_of_length_zero u (by omega)]

/-- Witness of C8: on `Tuple<int, std::string> t(1, "a")`, of arity 2, one application of
`tail()` yields a non-empty sequence. -/
theorem Tuple_shape_invariant_witness :
    ∃ u : AnyTuple,
      AnyTuple.tails 1 ⟨[Int, String], Tuple.ctor [Int, String] (1, "a", ())⟩ = some u ∧
      u.nonEmpty = true ∧ Tuple.arity u.Values u.obj = 1 :=
  (Tuple_shape_invariant Int [String] (Tuple.ctor [Int, String] (1, "a", ())) 1
    (by decide)).2.2.2.1

/-! ## Theorems on `printf` -/

theorem percent_ne_NUL : '%' ≠ NUL := by decide

theorem fmt_induction {P : List Char → Prop} (nil : P []) (single : ∀ c, P [c])
    (step : ∀ c d s, P s → P (d :: s) → P (c :: d :: s)) : ∀ s, P s := by
  have both : ∀ s, P s ∧ ∀ c, P (c :: s) := by
    intro s
    induction s with
    | nil => exact ⟨nil, single⟩
    | cons d s ih => exact ⟨ih.2 d, fun c => step c d s ih.1 (ih.2 d)⟩
  exact fun s => (both s).1

theorem NulFree.head {c : Char} {s : List Char} (h : NulFree (c :: s)) : c ≠ NUL :=
  h c (List.mem_cons_self c s)

theorem NulFree.tail {c : Char} {s : List Char} (h : NulFree (c :: s)) : NulFree s :=
  fun x hx => h x (List.mem_cons_of_mem c hx)

theorem printf_plain (c : Char) (s : List Char) (args : List Arg) (h0 : c ≠ NUL)
    (hp : c ≠ '%') : printf (c :: s) args = Run.put [c] (printf s args) := by
  cases args with
  | nil => cases s <;> simp [printf, printf_base, h0, hp]
  | cons value args => cases s <;> simp [printf, printf_args, h0, hp]

theorem printf_escaped (s : List Char) (args : List Arg) :
    printf ('%' :: '%' :: s) args = Run.put ['%'] (printf s args) := by
  cases args with
  | nil => simp [printf, printf_base, percent_ne_NUL]
  | cons value args => simp [printf, printf_args, percent_ne_NUL]

theorem printf_lone_nil :
    printf ['%'] [] =
      { out := [], outcome := Outcome.logic_error "invalid format string: missing arguments" } := by
  simp [printf, printf_base, percent_ne_NUL]

theorem printf_lone_cons (value : Arg) (args : List Arg) :
    printf ['%'] (value :: args) =
      Run.put value.streamed { out := [], outcome := Outcome.undefined } := by
  simp [printf, printf_args, percent_ne_NUL]

theorem printf_specifier_nil (d : Char) (s : List Char) (hd : d ≠ '%') :
    printf ('%' :: d :: s) [] =
      { out := [], outcome := Outcome.logic_error "invalid format string: missing arguments" } := by
  simp [printf, printf_base, percent_ne_NUL, hd]

theorem printf_specifier_cons (d : Char) (s : List Char) (value : Arg) (args : List Arg)
    (hd : d ≠ '%') :
    printf ('%' :: d :: s) (value :: args) = Run.put value.streamed (printf s args) := by
  cases args with
  | nil => simp [printf, printf_args, percent_ne_NUL, hd]
  | cons value' args' => simp [printf, printf_args, percent_ne_NUL, hd]

theorem pieces_plain (c : Char) (s : List Char) (hp : c ≠ '%') :
    pieces (c :: s) = Piece.plain c :: pieces s := by
  cases s <;> simp [pieces, hp]

theorem pieces_lone : pieces ['%'] = [Piece.lonePercent] := by
  simp [pieces]

theorem pieces_escaped (s : List Char) : pieces ('%' :: '%' :: s) = Piece.escaped :: pieces s := by
  simp [pieces]

theorem pieces_specifier (d : Char) (s : List Char) (hd : d ≠ '%') :
    pieces ('%' :: d :: s) = Piece.specifier d :: pieces s := by
  simp [pieces, hd]

theorem specifiers_plain (c : Char) (s : List Char) (hp : c ≠ '%') :
    specifiers (c :: s) = specifiers s := by
  simp [specifiers, pieces_plain c s hp, Piece.isSpecifier]

theorem specifiers_escaped (s : List Char) : specifiers ('%' :: '%' :: s) = specifiers s := by
  simp [specifiers, pieces_escaped, Piece.isSpecifier]

theorem specifiers_specifier (d : Char) (s : List Char) (hd : d ≠ '%') :
    specifiers ('%' :: d :: s) = specifiers s + 1 := by
  simp [specifiers, pieces_specifier d s hd, Piece.isSpecifier]

theorem endsInLonePercent_plain (c : Char) (s : List Char) (hp : c ≠ '%') :
    endsInLonePercent (c :: s) = endsInLonePercent s := by
  simp [endsInLonePercent, pieces_plain c s hp, Piece.isLonePercent]

theorem endsInLonePercent_escaped (s : List Char) :
    endsInLonePercent ('%' :: '%' :: s) = endsInLonePercent s := by
  simp [endsInLonePercent, pieces_escaped, Piece.isLonePercent]

theorem endsInLonePercent_specifier (d : Char) (s : List Char) (hd : d ≠ '%') :
    endsInLonePercent ('%' :: d :: s) = endsInLonePercent s := by
  simp [endsInLonePercent, pieces_specifier d s hd, Piece.isLonePercent]

theorem specifiersOrLonePercent_of_true {s : List Char} (h : endsInLonePercent s = true) :
    specifiersOrLonePercent s = specifiers s + 1 := by
  simp [specifiersOrLonePercent, h]

theorem specifiersOrLonePercent_of_false {s : List Char} (h : endsInLonePercent s = false) :
    specifiersOrLonePercent s = specifiers s := by
  simp [specifiersOrLonePercent, h]

/-- What `printf` does on every well-formed format string and every argument list, by the
number of specifiers and the presence of a final lone `%`. -/
theorem printf_classify : ∀ s : List Char, NulFree s → ∀ args : List Arg,
    (args.length < specifiersOrLonePercent s →
      (printf s args).outcome
        = Outcome.logic_error "invalid format string: missing arguments") ∧
    (specifiers s = args.length → endsInLonePercent s = false →
      printf s args
        = { out := substituted (pieces s) (args.map Arg.streamed),
            outcome := Outcome.returned }) ∧
    (specifiers s < args.length → endsInLonePercent s = false →
      (printf s args).outcome = Outcome.logic_error "extra arguments provided to printf") ∧
    (specifiers s < args.length → endsInLonePercent s = true →
      (printf s args).outcome = Outcome.undefined) := by
  apply fmt_induction
  · intro _ args
    cases args <;>
      simp [specifiersOrLonePercent, specifiers, endsInLonePercent, pieces, printf, printf_base,
        printf_args, substituted]
  · intro c hs args
    by_cases hc : c = '%'
    · subst hc
      cases args with
      | nil =>
        rw [printf_lone_nil]
        simp [specifiersOrLonePercent, specifiers, endsInLonePercent, pieces_lone,
          Piece.isSpecifier, Piece.isLonePercent]
      | cons value args =>
        rw [printf_lone_cons]
        simp [specifiersOrLonePercent, specifiers, endsInLonePercent, pieces_lone,
          Piece.isSpecifier, Piece.isLonePercent, Run.put]
    · rw [printf_plain c [] args hs.head hc]
      cases args <;>
        simp [specifiersOrLonePercent, specifiers, endsInLonePercent, pieces, hc, printf,
          printf_base, printf_args, substituted, Piece.isSpecifier, Piece.isLonePercent, Run.put]
  · intro c d s ihs ihd hs args
    by_cases hc : c = '%'
    · subst hc
      by_cases hd : d = '%'
      · subst hd
        obtain ⟨h1, h2, h3, h4⟩ := ihs hs.tail.tail args
        rw [printf_escaped]
        simp only [specifiersOrLonePercent, specifiers_escaped, endsInLonePercent_escaped,
          pieces_escaped, substituted] at *
        refine ⟨h1, ?_, h3, h4⟩
        intro hk hl
        rw [h2 hk hl]
        rfl
      · cases args with
        | nil =>
          rw [printf_specifier_nil d s hd]
          simp [specifiersOrLonePercent, specifiers_specifier d s hd]
        | cons value args =>
          obtain ⟨h1, h2, h3, h4⟩ := ihs hs.tail.tail args
          rw [printf_specifier_cons d s value args hd]
          simp only [specifiersOrLonePercent, specifiers_specifier d s hd,
            endsInLonePercent_specifier d s hd, pieces_specifier d s hd, substituted,
            List.length_cons, List.map_cons] at *
          refine ⟨fun h => h1 (by omega), ?_, fun h => h3 (by omega), fun h => h4 (by omega)⟩
          intro hk hl
          rw [h2 (by omega) hl]
          rfl
    · obtain ⟨h1, h2, h3, h4⟩ := ihd hs.tail args
      rw [printf_plain c (d :: s) args hs.head hc]
      simp only [specifiersOrLonePercent, specifiers_plain c (d :: s) hc,
        endsInLonePercent_plain c (d :: s) hc, pieces_plain c (d :: s) hc, substituted] at *
      refine ⟨h1, ?_, h3, h4⟩
      intro hk hl
      rw [h2 hk hl]
      rfl

/-- C5: for every well-formed format string that contains exactly as many specifiers (a
`%` followed by any character other than `%`) as there are arguments and does not end in an
unpaired `%`, `printf` returns without an exception and writes exactly the format string
with the `i`-th specifier replaced by the streamed text of the `i`-th argument and every
`%%` replaced by a single `%`. -/
theorem printf_success (s : List Char) (args : List Arg) (hs : NulFree s)
    (hk : specifiers s = args.length) (hl : endsInLonePercent s = false) :
    printf s args
      = { out := substituted (pieces s) (args.map Arg.streamed),
          outcome := Outcome.returned } :=
  (printf_classify s hs args).2.1 hk hl

/-- Witness of C5: the call of `testPrintf` returns and writes
`"Hello, Alice! You have 5 new messages.\n"`. -/
theorem printf_success_witness :
    testPrintf
      = { out := "Hello, Alice! You have 5 new messages.\n".toList,
          outcome := Outcome.returned } :=
  (printf_success "Hello, %s! You have %d new messages.\n".toList
    [Arg.cstr "Alice", Arg.int 5] (by decide) (by decide) (by decide)).trans (by decide)

theorem NulFree_cString (buf : List Char) : NulFree (cString buf) := by
  induction buf with
  | nil =>
    intro c hc
    cases hc
  | cons b buf ih =>
    by_cases hb : b = NUL
    · intro c hc
      simp [cString, hb] at hc
    · intro c hc
      simp only [cString, hb, if_false, List.mem_cons] at hc
      rcases hc with rfl | hc
      · exact hb
      · exact ih c hc

theorem cString_NUL (s : List Char) : cString (NUL :: s) = [] := by
  simp [cString]

theorem cString_cons (c : Char) (s : List Char) (hc : c ≠ NUL) :
    cString (c :: s) = c :: cString s := by
  simp [cString, hc]

theorem printf_NUL (s : List Char) (args : List Arg) : printf (NUL :: s) args = printf [] args := by
  cases args with
  | nil => cases s <;> simp [printf, printf_base]
  | cons value args => cases s <;> simp [printf, printf_args]

/-- As long as the call on the format string alone does not read past the terminator,
the characters behind the terminator in the array are never read: the call does what it
does on the format string alone. -/
theorem printf_cString : ∀ buf : List Char, ∀ args : List Arg,
    (printf (cString buf) args).outcome ≠ Outcome.undefined →
      printf buf args = printf (cString buf) args := by
  apply fmt_induction
  · intro args _
    rfl
  · intro c args _
    by_cases hc : c = NUL
    · subst hc
      rw [cString_NUL, printf_NUL]
    · rw [cString_cons c [] hc]
      rfl
  · intro c d s ihs ihd args h
    by_cases hc : c = NUL
    · subst hc
      rw [cString_NUL, printf_NUL]
    · rw [cString_cons c (d :: s) hc] at h ⊢
      by_cases hp : c = '%'
      · subst hp
        by_cases hd : d = NUL
        · subst hd
          rw [cString_NUL] at h ⊢
          cases args with
          | nil =>
            rw [printf_lone_nil, printf_specifier_nil NUL s (Ne.symm percent_ne_NUL)]
          | cons value args =>
            rw [printf_lone_cons] at h
            exact absurd rfl h
        · rw [cString_cons d s hd] at h ⊢
          by_cases hdp : d = '%'
          · subst hdp
            rw [printf_escaped] at h ⊢
            rw [printf_escaped, ihs args h]
          · cases args with
            | nil => rw [printf_specifier_nil d s hdp, printf_specifier_nil d _ hdp]
            | cons value args =>
              rw [printf_specifier_cons d _ value args hdp] at h ⊢
              rw [printf_specifier_cons d _ value args hdp, ihs args h]
      · rw [printf_plain c _ args hc hp] at h ⊢
        rw [printf_plain c _ args hc hp, ihd args h]

/-- The first half of C6, on every array: when the format string contains more
specifiers, a final lone `%` included, than there are arguments, `printf` throws
`std::logic_error("invalid format string: missing arguments")`. -/
theorem printf_missing_arguments_of_lt (buf : List Char) (args : List Arg)
    (h : args.length < specifiersOrLonePercent (cString buf)) :
    (printf buf args).outcome
      = Outcome.logic_error "invalid format string: missing arguments" := by
  have hm := (printf_classify (cString buf) (NulFree_cString buf) args).1 h
  rw [printf_cString buf args (by rw [hm]; decide)]
  exact hm

/-- The first half of C7, on every array whose format string does not end in a lone `%`:
when the format string contains fewer specifiers than there are arguments, `printf` throws
`std::logic_error("extra arguments provided to printf")`. -/
theorem printf_extra_arguments_of_lt (buf : List Char) (args : List Arg)
    (hk : specifiers (cString buf) < args.length)
    (hl : endsInLonePercent (cString buf) = false) :
    (printf buf args).outcome
      = Outcome.logic_error "extra arguments provided to printf" := by
  have hm := (printf_classify (cString buf) (NulFree_cString buf) args).2.2.1 hk hl
  rw [printf_cString buf args (by rw [hm]; decide)]
  exact hm

/-- C6 at the failing input: the call `printf("%\0%d", 1)` has the format string `"%"`,
with one specifier (the final lone `%`) and one argument, so not more specifiers than
arguments, yet it throws `std::logic_error("invalid format string: missing arguments")`:
it takes the terminator for the specifier character, writes the argument, moves past the
terminator and finds `%d` there with no argument left. -/
theorem printf_missing_arguments_behind_terminator :
    cString ['%', NUL, '%', 'd'] = "%".toList ∧
    ¬ ([Arg.int 1].length < specifiersOrLonePercent "%".toList) ∧
    printf ['%', NUL, '%', 'd'] [Arg.int 1]
      = { out := "1".toList,
          outcome := Outcome.logic_error "invalid format string: missing arguments" } := by
  decide

/-- C7 at the failing input: the call `printf("%", 1)` has a format with no specifier (no
`%` is followed by a character) and one argument, yet it does not throw
`std::logic_error("extra arguments provided to printf")`: it writes the argument and then
reads the format past its terminator. -/
theorem printf_extra_arguments_lone_percent :
    specifiers "%".toList < [Arg.int 1].length ∧
    printf "%".toList [Arg.int 1] = { out := "1".toList, outcome := Outcome.undefined } ∧
    (printf "%".toList [Arg.int 1]).outcome
      ≠ Outcome.logic_error "extra arguments provided to printf" := by
  decide

end VariadicTemplate

namespace Lambda

/-! ## Theorems on `test_mutable_lambda` -/

/-- C9 on the code: the first block writes `x = 11`, `x = 12`, `x = 13` from the three
calls `l1()` and then `Outside lambda, x = 42`; the third call does not write
`Inside mutable lambda, x = 15` and the last statement does not write
`Outside lambda, x = 10`, as the comments say. -/
theorem test_mutable_lambda_l1_output :
    test_mutable_lambda_l1
      = ["Test l1 lambda", "Inside mutable lambda, x = 11", "Inside mutable lambda, x = 12",
         "Inside mutable lambda, x = 13", "Outside lambda, x = 42"] ∧
    test_mutable_lambda_l1.get? 3 ≠ some "Inside mutable lambda, x = 15" ∧
    test_mutable_lambda_l1.get? 4 ≠ some "Outside lambda, x = 10" := by
  decide

/-- C10 on the code: in the second block the first call `l2(5)` makes `x` equal to 47 and
the block writes `x = 47`, `x = 52`, `x = 57` from the three calls and then
`Outside lambda l2, x = 57`; `x` is not 15 after the first call and the last statement
does not write `Outside lambda l2, x = 15`, as the comments say. -/
theorem test_mutable_lambda_l2_output :
    test_mutable_lambda_l2
      = (47, ["Test l2 lambda", "Inside lambda l2, x = 47", "Inside lambda l2, x = 52",
         "Inside lambda l2, x = 57", "Outside lambda l2, x = 57"]) ∧
    test_mutable_lambda_l2.1 ≠ 15 ∧
    test_mutable_lambda_l2.2.get? 4 ≠ some "Outside lambda l2, x = 15" := by
  decide

end Lambda

namespace DefaultAndDelete

/-! ## Theorems on `MyClass` -/

/-- C11: a default-constructed `MyClass` holds value 0 and `MyClass(v)` holds `v`; copy
construction, move construction, copy assignment and move assignment each leave the
target holding the value the source held; and the first block of `main` writes the one
line `Value: 10`. -/
theorem MyClass_special_members_preserve_value :
    MyClass.defaultCtor.value = 0 ∧
    (∀ v : Int, (MyClass.ctor v).value = v) ∧
    (∀ src : MyClass, (MyClass.copyCtor src).value = src.value) ∧
    (∀ src : MyClass, (MyClass.moveCtor src).1.value = src.value) ∧
    (∀ target src : MyClass, (MyClass.copyAssign target src).value = src.value) ∧
    (∀ target src : MyClass, (MyClass.moveAssign target src).1.value = src.value) ∧
    main_default_block = ["Value: 10"] :=
  ⟨rfl, fun _ => rfl, fun _ => rfl, fun _ => rfl, fun _ _ => rfl, fun _ _ => rfl, by decide⟩

end DefaultAndDelete
